import Mathlib

/-!
Shallow embedding of the derivation logic of the qem-bot incident pipeline:
`openqabot/smeltsync.py` (review-state resolution and sync-record building)
and `openqabot/types/incident.py` (channel parsing, revision resolution,
incident construction, livepatch classification and the quality gate).

String primitives that Python uses (`str.split(":")`, `str.startswith`,
substring membership `in`, `int(...)`) are embedded as structural
recursions over `List Char` so that every definition evaluates by kernel
reduction.
-/

namespace Qembot

/-- Python `haystack.startswith(needle)` on the underlying character lists:
`startsL cs ds` is true iff `cs` begins with `ds`. -/
def startsL : List Char → List Char → Bool
  | _, [] => true
  | [], _ :: _ => false
  | a :: as, b :: bs => a == b && startsL as bs

/-- Python `s.startswith(t)`. -/
def pyStartsWith (s t : String) : Bool :=
  startsL s.toList t.toList

/-- Split a character list at every occurrence of `sep`
(Python `str.split(sep)` semantics: splitting the empty string yields one
empty field; `n` separators yield `n + 1` fields). -/
def splitChar (sep : Char) : List Char → List (List Char)
  | [] => [[]]
  | c :: rest =>
    let r := splitChar sep rest
    if c == sep then
      [] :: r
    else
      match r with
      | [] => [[c]]
      | g :: gs => (c :: g) :: gs

/-- Python `s.split(":")`. -/
def pySplitColon (s : String) : List String :=
  (splitChar ':' s.toList).map String.mk

/-- ASCII decimal digit test (Python `\d` on the inputs in scope). -/
def isDig (c : Char) : Bool :=
  48 ≤ c.toNat && c.toNat ≤ 57

/-- Decimal value of a digit list, most significant first. -/
def digitsVal (ds : List Char) : Nat :=
  ds.foldl (fun n c => n * 10 + (c.toNat - 48)) 0

/-- Python `int(s)` restricted to an optional sign followed by decimal
digits; `none` models the `ValueError` raised on any other shape. -/
def pyToInt (s : String) : Option Int :=
  match s.toList with
  | [] => none
  | c :: rest =>
    if c == '-' then
      if rest ≠ [] ∧ rest.all isDig then some (-(digitsVal rest : Int)) else none
    else if c == '+' then
      if rest ≠ [] ∧ rest.all isDig then some ((digitsVal rest : Int)) else none
    else
      if (c :: rest).all isDig then some ((digitsVal (c :: rest) : Int)) else none

/-- Python substring membership `need in hay` (contiguous occurrence;
the empty string is a substring of everything). -/
def strHasSub (need : List Char) : List Char → Bool
  | [] => need.isEmpty
  | c :: t => startsL (c :: t) need || strHasSub need t

/-! ## Data model (spec section 3: RawIncident / RequestRecord / ReviewRecord)

A `ReviewRecord`'s `assignedByGroup` is an optional `{name: ...}` object;
only its `name` is ever read, so it is embedded as `Option String`.
Status objects `{name: ...}` are likewise flattened to their `name`. -/

structure ReviewRecord where
  assignedByGroup : Option String
  statusName : String
  deriving DecidableEq

structure RequestRecord where
  requestId : Int
  statusName : String
  reviewSet : List ReviewRecord
  deriving DecidableEq

/-- The raw SMELT incident shape consumed by `SMELTSync._create_record`.
`crd` holds the truthiness of the raw `crd` field (`bool(inc["crd"])`);
`packages` and `repositories` hold the `name` fields of their elements. -/
structure IncRaw where
  project : String
  emu : Bool
  packages : List String
  repositories : List String
  requestSet : List RequestRecord
  crd : Bool
  deriving DecidableEq

/-- The flat record `SMELTSync._create_record` emits (its exact key set). -/
structure SyncRecord where
  isActive : Bool
  project : String
  number : Int
  emu : Bool
  packages : List String
  channels : List String
  inReview : Bool
  approved : Bool
  rr_number : Option Int
  inReviewQAM : Bool
  embargoed : Bool
  deriving DecidableEq

/-! ## SMELTSync (smeltsync.py) -/

/-- The status names accepted by `SMELTSync._review_rrequest`. -/
def qualifyingStatuses : List String :=
  ["new", "review", "accepted", "revoked"]

/-- Insert into a list sorted by strictly descending `requestId`, after
every element with a strictly larger id (so that, as in Python's stable
`sorted(..., reverse=True)`, elements with equal ids keep input order). -/
def insertDesc (x : RequestRecord) : List RequestRecord → List RequestRecord
  | [] => [x]
  | y :: ys => if y.requestId > x.requestId then y :: insertDesc x ys else x :: y :: ys

/-- `sorted(requestSet, key=itemgetter("requestId"), reverse=True)`:
the stable descending sort by `requestId`. -/
def sortDescByRequestId : List RequestRecord → List RequestRecord
  | [] => []
  | x :: xs => insertDesc x (sortDescByRequestId xs)

/-- `SMELTSync._review_rrequest`: take the head of the descending sort
(i.e. the request with the maximal `requestId`) and return it only when
its own status name qualifies; otherwise `None`. -/
def review_rrequest (requestSet : List RequestRecord) : Option RequestRecord :=
  match sortDescByRequestId requestSet with
  | [] => none
  | rr :: _ => if qualifyingStatuses.contains rr.statusName then some rr else none

/-- `SMELTSync._is_inreview`. -/
def is_inreview (rr : RequestRecord) : Bool :=
  if !rr.reviewSet.isEmpty then rr.statusName == "review" else false

/-- `SMELTSync._is_revoked`. -/
def is_revoked (rr : RequestRecord) : Bool :=
  if !rr.reviewSet.isEmpty then rr.statusName == "revoked" else false

/-- `SMELTSync._is_accepted`. -/
def is_accepted (rr : RequestRecord) : Bool :=
  rr.statusName == "accepted" || rr.statusName == "new"

/-- First filter in `SMELTSync._has_qam_review`: reviews with a truthy
`assignedByGroup`. -/
def qamFilter1 (r : ReviewRecord) : Bool :=
  r.assignedByGroup.isSome

/-- Second filter in `SMELTSync._has_qam_review`: reviews assigned by the
group named `qam-openqa`. -/
def qamFilter2 (r : ReviewRecord) : Bool :=
  match r.assignedByGroup with
  | some g => g == "qam-openqa"
  | none => false

/-- `SMELTSync._has_qam_review`: filter the review set down to the
`qam-openqa`-assigned reviews and test the status of the first one. -/
def has_qam_review (rr : RequestRecord) : Bool :=
  if !rr.reviewSet.isEmpty then
    let review := (rr.reviewSet.filter qamFilter1).filter qamFilter2
    match review with
    | [] => false
    | r :: _ => if (["review", "new"] : List String).contains r.statusName then true else false
  else false

/-- The `revoked` flag `SMELTSync._create_record` derives from a request
set (it is used for `isActive` but not stored in the record). -/
def revoked_of (requestSet : List RequestRecord) : Bool :=
  match review_rrequest requestSet with
  | some rr => is_revoked rr
  | none => false

/-- `SMELTSync._create_record`; `none` models the `ValueError` of
`int(inc["project"].split(":")[-1])` on a non-numeric suffix. -/
def create_record (inc : IncRaw) : Option SyncRecord :=
  match pyToInt ((pySplitColon inc.project).getLastD "") with
  | none => none
  | some number =>
    match review_rrequest inc.requestSet with
    | some rr =>
      some
        { isActive := if is_accepted rr || is_revoked rr then false else true
          project := inc.project
          number := number
          emu := inc.emu
          packages := inc.packages
          channels := inc.repositories
          inReview := is_inreview rr
          approved := is_accepted rr
          rr_number := some rr.requestId
          inReviewQAM := has_qam_review rr
          embargoed := inc.crd }
    | none =>
      some
        { isActive := true
          project := inc.project
          number := number
          emu := inc.emu
          packages := inc.packages
          channels := inc.repositories
          inReview := false
          approved := false
          rr_number := none
          inReviewQAM := false
          embargoed := inc.crd }

/-! ## incident.py data model -/

/-- `Repos` from `openqabot/types`: a structured channel
(product, version, architecture). Modelled from the spec's Channel shape;
its use in `incident.py` (`Repos(p, v, a)`, `.product`, `.version`,
`.arch`) fixes the three fields. -/
structure Repos where
  product : String
  version : String
  arch : String
  deriving DecidableEq

/-- `ArchVer` from `openqabot/types`: the (architecture, version) grouping
key. Modelled from the spec's ArchVersion key; its use in `incident.py`
(`ArchVer(arch, ver)`, `.arch`) fixes the two fields. -/
structure ArchVer where
  arch : String
  version : String
  deriving DecidableEq

/-- The dict `Incident.__init__` consumes (the dashboard incident shape):
`rr_number`, `project`, `number`, `inReview`, `embargoed`, optional
`priority`, raw `channels` strings, `packages` names, `emu`. -/
structure IncidentInput where
  rr_number : Option Int
  project : String
  number : Int
  inReview : Bool
  embargoed : Bool
  priority : Option Int
  channels : List String
  packages : List String
  emu : Bool
  deriving DecidableEq

/-- The constructed `Incident` entity (the attributes `__init__` sets).
`revisions` is the dict `ArchVer -> int` in insertion order. -/
structure Incident where
  rr : Option Int
  project : String
  id : Int
  rrid : Option String
  staging : Bool
  embargoed : Bool
  priority : Option Int
  channels : List Repos
  packages : List String
  emu : Bool
  revisions : List (ArchVer × Int)
  livepatch : Bool
  deriving DecidableEq

/-- The structural errors `Incident.__init__` can raise. -/
inductive BuildErr
  | emptyChannels (project : String)
  | emptyPackages (project : String)
  | noRepoFound
  deriving DecidableEq

/-- The error raised by `Incident.has_failures` on an empty result list. -/
inductive ResultsErr
  | noResults
  deriving DecidableEq

/-- A row of the dashboard job-result response: `job_id` and `status`. -/
structure JobResult where
  job_id : Int
  status : String
  deriving DecidableEq

/-! ## Channel parsing (`Incident.__init__`, lines 29-66) -/

/-- One string of the first comprehension: a `SUSE:Updates` string whose
colon-split tail (from the third segment on) has exactly three tokens
`product:version:architecture`, with the `SLE-Module-Development-Tools-OBS`
product filtered out. -/
def chan3 (r : String) : Option Repos :=
  if pyStartsWith r "SUSE:Updates" then
    match (pySplitColon r).drop 2 with
    | [p, v, a] =>
      if p == "SLE-Module-Development-Tools-OBS" then none else some ⟨p, v, a⟩
    | _ => none
  else none

/-- One string of the second comprehension: a `SUSE:Updates` string whose
colon-split tail has exactly two tokens `product:version`; the
architecture defaults to `x86_64`. -/
def chan2 (r : String) : Option Repos :=
  if pyStartsWith r "SUSE:Updates" then
    match (pySplitColon r).drop 2 with
    | [p, v] => some ⟨p, v, "x86_64"⟩
    | _ => none
  else none

/-- The final filter: drop `SLE-Module-SUSE-Manager-Server` on `aarch64`. -/
def notMgrAarch (chan : Repos) : Bool :=
  !(chan.product == "SLE-Module-SUSE-Manager-Server" && chan.arch == "aarch64")

/-- The full channel-list construction of `Incident.__init__`: the
3-token pass, then the 2-token pass appended, then the
Manager-Server/aarch64 filter. -/
def parse_channels (raws : List String) : List Repos :=
  (raws.filterMap chan3 ++ raws.filterMap chan2).filter notMgrAarch

/-! ## Version normalization and revision resolution -/

/-- The optional tail of `version_pattern` = `(\d+(?:[.-](?:SP)?\d+)?)`
after the leading digit run: a `.` or `-` separator, an optional `SP`,
then at least one digit (with the regex's backtracking: if `SP` is not
followed by a digit the whole optional part matches empty, since the
separator is then followed by the non-digit `S`). -/
def spTail : List Char → List Char
  | [] => []
  | c :: rest2 =>
    if c == '-' || c == '.' then
      match rest2 with
      | 'S' :: 'P' :: rest3 =>
        let ds := rest3.takeWhile isDig
        if ds.isEmpty then [] else c :: 'S' :: 'P' :: ds
      | _ =>
        let ds := rest2.takeWhile isDig
        if ds.isEmpty then [] else c :: ds
    else []

/-- `re.match(version_pattern, ver)` in `Incident._rev`: the leading
match of `(\d+(?:[.-](?:SP)?\d+)?)` when the string starts with a digit,
otherwise the raw string unchanged. -/
def normalizeVersion (ver : String) : String :=
  let cs := ver.toList
  let d := cs.takeWhile isDig
  if d.isEmpty then ver else String.mk (d ++ spTail (cs.drop d.length))

/-- Python-dict upsert used to build `tmpdict` in `Incident._rev`:
append the pair to an existing key's list, else add the key at the end
(dict insertion order). -/
def upsert (d : List (ArchVer × List (String × String))) (k : ArchVer)
    (pv : String × String) : List (ArchVer × List (String × String)) :=
  match d with
  | [] => [(k, [pv])]
  | (k0, l0) :: rest =>
    if k0 = k then (k0, l0 ++ [pv]) :: rest else (k0, l0) :: upsert rest k pv

/-- The grouping loop of `Incident._rev`: group channels by
`ArchVer(arch, normalized version)`, collecting `(product, raw version)`
pairs in iteration order. -/
def groupChannels (channels : List Repos) : List (ArchVer × List (String × String)) :=
  channels.foldl
    (fun d repo => upsert d ⟨repo.arch, normalizeVersion repo.version⟩ (repo.product, repo.version))
    []

/-- An abstract `get_max_revision(repos, arch, project)` collaborator:
returns the maximum revision or signals `NoRepoFoundError`. -/
def RevOracle : Type :=
  List (String × String) → String → String → Except Unit Int

/-- The query loop of `Incident._rev`: for each group ask the oracle;
a `NoRepoFoundError` aborts; non-positive revisions are omitted. -/
def revLoop (oracle : RevOracle) (project : String) :
    List (ArchVer × List (String × String)) → Except BuildErr (List (ArchVer × Int))
  | [] => .ok []
  | (archver, lrepos) :: rest =>
    match oracle lrepos archver.arch project with
    | .error _ => .error .noRepoFound
    | .ok max_rev =>
      match revLoop oracle project rest with
      | .error e => .error e
      | .ok r => .ok (if max_rev > 0 then (archver, max_rev) :: r else r)

/-- `Incident._rev`. -/
def rev_ (channels : List Repos) (project : String) (oracle : RevOracle) :
    Except BuildErr (List (ArchVer × Int)) :=
  revLoop oracle project (groupChannels channels)

/-! ## Incident construction -/

/-- Stable insertion into a list sorted by ascending string length
(Python's stable `sorted(..., key=len)`): skip only strictly shorter
strings, so equal lengths keep input order. -/
def insertLen (x : String) : List String → List String
  | [] => [x]
  | y :: ys => if y.length < x.length then y :: insertLen x ys else x :: y :: ys

/-- `sorted(incident["packages"], key=len)`. -/
def sortByLen : List String → List String
  | [] => []
  | x :: xs => insertLen x (sortByLen xs)

/-- The veto test of `Incident._is_livepatch`: a full kernel package. -/
def veto_package (p : String) : Bool :=
  pyStartsWith p "kernel-default" || pyStartsWith p "kernel-source" || pyStartsWith p "kernel-azure"

/-- The livepatch-package test of `Incident._is_livepatch`. -/
def livepatch_package (p : String) : Bool :=
  pyStartsWith p "kgraft-patch-" || pyStartsWith p "kernel-livepatch"

/-- The scan loop of `Incident._is_livepatch` with its `kgraft`
accumulator: a veto package returns `False` immediately, a livepatch
package sets the flag. -/
def is_livepatch_go (kgraft : Bool) : List String → Bool
  | [] => kgraft
  | p :: rest =>
    if veto_package p then false else is_livepatch_go (kgraft || livepatch_package p) rest

/-- `Incident._is_livepatch`. -/
def is_livepatch (packages : List String) : Bool :=
  is_livepatch_go false packages

/-- `Incident.__init__` as a builder function; the `oracle` stands for
the external `get_max_revision` collaborator. Fails with
`EmptyChannels` when the parsed channel list is empty, then with
`EmptyPackagesError` when the package list is empty, then propagates
`NoRepoFoundError` from `_rev`. -/
def build (inc : IncidentInput) (oracle : RevOracle) : Except BuildErr Incident :=
  let rrid : Option String :=
    match inc.rr_number with
    | some n => if n = 0 then none else some (inc.project ++ ":" ++ toString n)
    | none => none
  let channels := parse_channels inc.channels
  if channels.isEmpty then .error (.emptyChannels inc.project)
  else
    let packages := sortByLen inc.packages
    if packages.isEmpty then .error (.emptyPackages inc.project)
    else
      match rev_ channels inc.project oracle with
      | .error e => .error e
      | .ok revisions =>
        .ok
          { rr := inc.rr_number
            project := inc.project
            id := inc.number
            rrid := rrid
            staging := !inc.inReview
            embargoed := inc.embargoed
            priority := inc.priority
            channels := channels
            packages := packages
            emu := inc.emu
            revisions := revisions
            livepatch := is_livepatch packages }

/-- First-match lookup in the revisions association list (Python dict
membership and indexing; `rev_` keeps keys unique). -/
def alookup : List (ArchVer × Int) → ArchVer → Option Int
  | [], _ => none
  | (k, v) :: rest, key => if k = key then some v else alookup rest key

/-- `Incident.revisions_with_fallback`: look up `(arch, ver)`; if absent
and `ver` starts with `"12"`, look up `(arch, "12")` instead; a
`KeyError` becomes `none`. -/
def Incident.revisions_with_fallback (inc : Incident) (arch ver : String) : Option Int :=
  let arch_ver : ArchVer := ⟨arch, ver⟩
  let arch_ver2 : ArchVer :=
    if (alookup inc.revisions arch_ver).isNone && pyStartsWith ver "12" then ⟨arch, "12"⟩
    else arch_ver
  alookup inc.revisions arch_ver2

/-! ## Quality gate (`Incident.has_failures` / `Incident.filter_failures`) -/

/-- The status test of `Incident.filter_failures`, literally
`res["status"] not in ("passed")`: `("passed")` is the plain string
`"passed"`, so this is Python substring membership — true iff the status
is not a contiguous substring of `"passed"`. -/
def status_is_failure (s : String) : Bool :=
  !(strHasSub s.toList ("passed".toList))

/-- `Incident.filter_failures`; `ignoredC job_id inc` stands for the
external `has_ignored_comment(job_id, inc)` comment-override query. -/
def filter_failures (results : List JobResult) (incId : Int)
    (ignoredC : Int → Int → Bool) : List JobResult :=
  results.filter (fun res => status_is_failure res.status && !(ignoredC res.job_id incId))

/-- `Incident.has_failures` on an already-fetched result list: compute
the failures, raise `NoResultsError` when the fetched list itself is
empty, otherwise report whether any failure remains. -/
def has_failures (results : List JobResult) (incId : Int)
    (ignoredC : Int → Int → Bool) : Except ResultsErr Bool :=
  let failed_jobs := filter_failures results incId ignoredC
  if results.isEmpty then .error .noResults
  else .ok (!failed_jobs.isEmpty)

/-- Discriminator for `build` results: the structural error, if any. -/
def buildErrOf (e : Except BuildErr Incident) : Option BuildErr :=
  match e with
  | .error x => some x
  | .ok _ => none

/-- `true` iff a `build` result is a constructed incident. -/
def buildOk (e : Except BuildErr Incident) : Bool :=
  match e with
  | .error _ => false
  | .ok _ => true

/-! ## Spec-side selection functions (for refinement statements)

These two follow the spec's words ("the request with the maximum
`requestId`", "the first review assigned by `qam-openqa` in set order")
as direct scans, to be compared with the sort/filter-based code. -/

/-- Leftmost-maximum combination: keep the current candidate unless the
next request has a strictly larger `requestId`. -/
def fm (m r : RequestRecord) : RequestRecord :=
  if r.requestId > m.requestId then r else m

/-- Leftmost maximum of `m` and a list, scanning left to right. -/
def gmax (m : RequestRecord) : List RequestRecord → RequestRecord
  | [] => m
  | r :: rest => gmax (fm m r) rest

/-- The request with the maximal `requestId` (first among equal ids),
or `none` for an empty set. -/
def firstMax : List RequestRecord → Option RequestRecord
  | [] => none
  | x :: xs => some (gmax x xs)

/-- The first review in set order assigned by the `qam-openqa` group. -/
def firstQamReview : List ReviewRecord → Option ReviewRecord
  | [] => none
  | r :: rest => if qamFilter2 r then some r else firstQamReview rest

/-! ## Concrete inputs used by witnesses -/

def incC5 : IncRaw := ⟨"M:1", false, [], [], [], false⟩

def recC5 : SyncRecord := ⟨true, "M:1", 1, false, [], [], false, false, none, false, false⟩

def incC8w : Incident :=
  ⟨none, "q", 0, none, true, false, none, [], ["x"], false, [(⟨"s390x", "12"⟩, 7)], false⟩

def incC6w : IncidentInput :=
  ⟨none, "pr", 2, false, false, none, ["SUSE:Updates:A:15:x86_64"], ["pkg"], false⟩

/-! ## Helper lemmas -/

lemma is_livepatch_go_veto (l : List String) (h : ∃ p ∈ l, veto_package p = true) :
    ∀ b, is_livepatch_go b l = false := by
  induction l with
  | nil => rcases h with ⟨p, hp, _⟩; cases hp
  | cons x xs ih =>
    intro b
    rcases h with ⟨p, hp, hv⟩
    by_cases hx : veto_package x = true
    · simp [is_livepatch_go, hx]
    · have hpx : p ∈ xs := by
        rcases List.mem_cons.mp hp with h1 | h1
        · exact absurd (h1 ▸ hv) hx
        · exact h1
      simp only [is_livepatch_go, if_neg hx]
      exact ih ⟨p, hpx, hv⟩ _

lemma is_livepatch_go_noveto (l : List String) (h : ∀ p ∈ l, veto_package p = false) :
    ∀ b, is_livepatch_go b l = (b || l.any livepatch_package) := by
  induction l with
  | nil => intro b; simp [is_livepatch_go]
  | cons x xs ih =>
    intro b
    have hx : veto_package x = false := h x (List.mem_cons_self x xs)
    have hxs : ∀ p ∈ xs, veto_package p = false := fun p hp => h p (List.mem_cons_of_mem x hp)
    simp only [is_livepatch_go, hx, Bool.false_eq_true, if_false, List.any_cons]
    rw [ih hxs]
    cases b <;> cases livepatch_package x <;> simp

/-! ## Claim theorems -/

/-- C3 (code bug evaluation): the raw-failure test of
`Incident.filter_failures` is written `res["status"] not in ("passed")`,
a substring test against the single string `"passed"`; the status
`"pass"` differs from `"passed"` yet is not classified as a failure, so
the record is dropped from the failure list even without any ignore
comment. -/
theorem C3_code_bug_thm :
    status_is_failure "pass" = false ∧ "pass" ≠ "passed" ∧
      filter_failures [⟨1, "pass"⟩] 5 (fun _ _ => false) = [] := by
  decide

/-- C5: every record `SMELTSync._create_record` produces satisfies
`isActive = not (approved or revoked)`, where `revoked` is the flag the
builder derives from the request set. -/
theorem C5_thm (inc : IncRaw) (rec : SyncRecord) (h : create_record inc = some rec) :
    rec.isActive = !(rec.approved || revoked_of inc.requestSet) := by
  unfold create_record at h
  unfold revoked_of
  cases hp : pyToInt ((pySplitColon inc.project).getLastD "") with
  | none => rw [hp] at h; cases h
  | some number =>
    rw [hp] at h
    cases hr : review_rrequest inc.requestSet with
    | some rr =>
      rw [hr] at h
      injection h with h
      subst h
      cases hb : (is_accepted rr || is_revoked rr) with
      | true =>
        rcases Bool.or_eq_true_iff.mp hb with h1 | h1 <;> simp [h1]
      | false =>
        have h1 := Bool.or_eq_false_iff.mp hb
        simp [h1.1, h1.2]
    | none =>
      rw [hr] at h
      injection h with h
      subst h
      rfl

/-- C5 witness at a concrete incident. -/
theorem C5_witness :
    create_record incC5 = some recC5 ∧
      recC5.isActive = !(recC5.approved || revoked_of incC5.requestSet) :=
  ⟨by decide, C5_thm incC5 recC5 (by decide)⟩

/-- C7: `Incident.has_failures` raises `NoResultsError` exactly on an
empty fetched result list; on a non-empty list it returns whether any
non-suppressed failure remains, and in particular returns `ok false`
(a normal passing outcome) when every result is a non-failure or is
suppressed by a matching comment. -/
theorem C7_thm (results : List JobResult) (incId : Int) (ignoredC : Int → Int → Bool) :
    (results = [] → has_failures results incId ignoredC = .error .noResults)
    ∧ (results ≠ [] →
        has_failures results incId ignoredC =
          .ok (!(filter_failures results incId ignoredC).isEmpty))
    ∧ (results ≠ [] →
        (∀ r ∈ results, status_is_failure r.status = false ∨ ignoredC r.job_id incId = true) →
        has_failures results incId ignoredC = .ok false) := by
  refine ⟨?_, ?_, ?_⟩
  · intro h; subst h; rfl
  · intro h
    unfold has_failures
    rw [if_neg (by simpa [List.isEmpty_iff] using h)]
  · intro h hall
    have hfil : filter_failures results incId ignoredC = [] := by
      unfold filter_failures
      rw [List.filter_eq_nil_iff]
      intro r hr
      rcases hall r hr with h1 | h1 <;> simp [h1]
    unfold has_failures
    rw [if_neg (by simpa [List.isEmpty_iff] using h)]
    rw [hfil]
    rfl

/-- C7 witness: one unsuppressed failed job yields `ok true`. -/
theorem C7_witness :
    has_failures [⟨1, "failed"⟩] 7 (fun _ _ => false) = Except.ok true :=
  ((C7_thm [⟨1, "failed"⟩] 7 (fun _ _ => false)).2.1 (by decide)).trans rfl

/-- C8 counterexample: the `"12"` fallback of
`Incident.revisions_with_fallback` fires for architecture `aarch64` as
well — with only an `(aarch64, "12")` revision stored, looking up
`(aarch64, "12-SP2")` returns that revision although the direct key is
absent and the architecture is not `x86_64`. -/
theorem C8_counterexample :
    Incident.revisions_with_fallback
        ⟨none, "p", 0, none, true, false, none, [], ["x"], false, [(⟨"aarch64", "12"⟩, 5)], false⟩
        "aarch64" "12-SP2" = some 5 ∧
      alookup [(⟨"aarch64", "12"⟩, 5)] ⟨"aarch64", "12-SP2"⟩ = none ∧
      "aarch64" ≠ "x86_64" := by
  decide

/-- C8 (amended): `revisions_with_fallback` returns the stored revision
at `(arch, ver)` when present; when absent and `ver` starts with `"12"`
it returns the lookup at `(arch, "12")`; when absent otherwise it
returns `none` — and the fallback applies to every architecture, not
only `x86_64`. -/
theorem C8_amended_thm (inc : Incident) (arch ver : String) :
    (∀ n, alookup inc.revisions ⟨arch, ver⟩ = some n →
        inc.revisions_with_fallback arch ver = some n)
    ∧ (alookup inc.revisions ⟨arch, ver⟩ = none → pyStartsWith ver "12" = true →
        inc.revisions_with_fallback arch ver = alookup inc.revisions ⟨arch, "12"⟩)
    ∧ (alookup inc.revisions ⟨arch, ver⟩ = none → pyStartsWith ver "12" = false →
        inc.revisions_with_fallback arch ver = none) := by
  unfold Incident.revisions_with_fallback
  refine ⟨?_, ?_, ?_⟩
  · intro n h; simp [h]
  · intro h hs; simp [h, hs]
  · intro h hs; simp [h, hs]

/-- C8 witness: the fallback clause applied at a concrete incident. -/
theorem C8_witness :
    incC8w.revisions_with_fallback "s390x" "12-SP2" = alookup incC8w.revisions ⟨"s390x", "12"⟩ :=
  (C8_amended_thm incC8w "s390x" "12-SP2").2.1 (by decide) (by decide)

/-- C9: `Incident._is_livepatch` returns `false` whenever some package
starts with `kernel-default`, `kernel-source` or `kernel-azure`,
wherever it sits in the list; without such a veto package it returns
`true` iff some package starts with `kgraft-patch-` or
`kernel-livepatch`. -/
theorem C9_thm (packages : List String) :
    ((∃ p ∈ packages, veto_package p = true) → is_livepatch packages = false)
    ∧ ((∀ p ∈ packages, veto_package p = false) →
        (is_livepatch packages = true ↔ ∃ p ∈ packages, livepatch_package p = true)) := by
  constructor
  · intro h
    exact is_livepatch_go_veto packages h false
  · intro h
    unfold is_livepatch
    rw [is_livepatch_go_noveto packages h false]
    simp [List.any_eq_true]

/-- C9 witness: the veto clause applied at a concrete package list. -/
theorem C9_witness : is_livepatch ["kernel-default", "kgraft-patch-SLE15"] = false :=
  (C9_thm ["kernel-default", "kgraft-patch-SLE15"]).1 ⟨"kernel-default", by decide, by decide⟩

lemma chan3_some_product (r : String) (c : Repos) (h : chan3 r = some c) :
    ¬c.product = "SLE-Module-Development-Tools-OBS" := by
  unfold chan3 at h
  split at h
  · split at h
    next p v a =>
      split at h
      next => cases h
      next hne =>
        injection h with h
        subst h
        simpa using hne
    next => cases h
  · cases h

lemma chan2_some_arch (r : String) (c : Repos) (h : chan2 r = some c) :
    c.arch = "x86_64" := by
  unfold chan2 at h
  split at h
  · split at h
    next p v =>
      injection h with h
      subst h
      rfl
    next => cases h
  · cases h

lemma chan3_none_of_malformed (s : String)
    (h : pyStartsWith s "SUSE:Updates" = false ∨ ((pySplitColon s).drop 2).length ≠ 3) :
    chan3 s = none := by
  unfold chan3
  rcases h with h | h
  · simp [h]
  · split
    · split
      next p v a heq =>
        exact absurd (by rw [heq]; rfl) h
      next => rfl
    · rfl

lemma chan2_none_of_malformed (s : String)
    (h : pyStartsWith s "SUSE:Updates" = false ∨ ((pySplitColon s).drop 2).length ≠ 2) :
    chan2 s = none := by
  unfold chan2
  rcases h with h | h
  · simp [h]
  · split
    · split
      next p v heq =>
        exact absurd (by rw [heq]; rfl) h
      next => rfl
    · rfl

/-- C2 counterexample: the `SLE-Module-Development-Tools-OBS` exclusion
is not unconditional — a 2-token channel string with that product
survives parsing (with the defaulted `x86_64` architecture). -/
theorem C2_counterexample :
    parse_channels ["SUSE:Updates:SLE-Module-Development-Tools-OBS:15"] =
      [⟨"SLE-Module-Development-Tools-OBS", "15", "x86_64"⟩] := by
  decide

/-- C2 (amended): the exclusion of product
`SLE-Module-Development-Tools-OBS` applies only to the 3-token pass; a
channel with that product can enter the parsed list only through the
2-token pass, hence always carries the defaulted architecture
`x86_64`. -/
theorem C2_amended_thm (raws : List String) (c : Repos) (hmem : c ∈ parse_channels raws)
    (hprod : c.product = "SLE-Module-Development-Tools-OBS") : c.arch = "x86_64" := by
  unfold parse_channels at hmem
  rw [List.mem_filter] at hmem
  rcases List.mem_append.mp hmem.1 with h1 | h1
  · rcases List.mem_filterMap.mp h1 with ⟨r, _, hr⟩
    exact absurd hprod (chan3_some_product r c hr)
  · rcases List.mem_filterMap.mp h1 with ⟨r, _, hr⟩
    exact chan2_some_arch r c hr

/-- C2 witness at the concrete surviving channel. -/
theorem C2_witness :
    (⟨"SLE-Module-Development-Tools-OBS", "15", "x86_64"⟩ : Repos) ∈
        parse_channels ["SUSE:Updates:SLE-Module-Development-Tools-OBS:15"] ∧
      (⟨"SLE-Module-Development-Tools-OBS", "15", "x86_64"⟩ : Repos).arch = "x86_64" :=
  ⟨by decide,
    C2_amended_thm ["SUSE:Updates:SLE-Module-Development-Tools-OBS:15"]
      ⟨"SLE-Module-Development-Tools-OBS", "15", "x86_64"⟩ (by decide) rfl⟩

/-- C10: channel parsing is total on malformed shapes — a string that
does not start with `SUSE:Updates`, or whose colon-split tail from the
third segment on has a length other than 2 or 3, contributes no channel
at all: removing it from the input leaves the parsed list unchanged
(and parsing is a total function, so no error is raised). -/
theorem C10_thm (pre post : List String) (s : String)
    (h : pyStartsWith s "SUSE:Updates" = false ∨
      (((pySplitColon s).drop 2).length ≠ 2 ∧ ((pySplitColon s).drop 2).length ≠ 3)) :
    parse_channels (pre ++ s :: post) = parse_channels (pre ++ post) := by
  have h3 : chan3 s = none := chan3_none_of_malformed s (h.imp id And.right)
  have h2 : chan2 s = none := chan2_none_of_malformed s (h.imp id And.left)
  unfold parse_channels
  simp [List.filterMap_append, h3, h2]

/-- C10 witness: a malformed string dropped from a concrete input. -/
theorem C10_witness :
    parse_channels ["SUSE:Updates:Mod:15:x86_64", "bogus"] =
      parse_channels ["SUSE:Updates:Mod:15:x86_64"] :=
  C10_thm ["SUSE:Updates:Mod:15:x86_64"] [] "bogus" (Or.inl (by decide))

lemma fm_assoc (a b c : RequestRecord) : fm (fm a b) c = fm a (fm b c) := by
  unfold fm
  split_ifs <;> first | rfl | omega

lemma gmax_fm (l : List RequestRecord) : ∀ x z, fm x (gmax z l) = gmax (fm x z) l := by
  induction l with
  | nil => intro x z; rfl
  | cons w ws ih =>
    intro x z
    show fm x (gmax (fm z w) ws) = gmax (fm (fm x z) w) ws
    rw [ih x (fm z w), fm_assoc]

lemma insertDesc_head (x : RequestRecord) (l : List RequestRecord) :
    (insertDesc x l).head? =
      some (match l with
        | [] => x
        | y :: _ => if y.requestId > x.requestId then y else x) := by
  cases l with
  | nil => rfl
  | cons y ys =>
    by_cases h : y.requestId > x.requestId <;> simp [insertDesc, h]

lemma insertDesc_ne_nil (x : RequestRecord) (l : List RequestRecord) :
    insertDesc x l ≠ [] := by
  cases l with
  | nil => simp [insertDesc]
  | cons y ys => unfold insertDesc; split <;> simp

lemma sortDesc_head (rs : List RequestRecord) :
    (sortDescByRequestId rs).head? = firstMax rs := by
  induction rs with
  | nil => rfl
  | cons x xs ih =>
    show (insertDesc x (sortDescByRequestId xs)).head? = firstMax (x :: xs)
    rw [insertDesc_head]
    cases hs : sortDescByRequestId xs with
    | nil =>
      have hxs : xs = [] := by
        cases xs with
        | nil => rfl
        | cons a as => exact absurd hs (insertDesc_ne_nil a (sortDescByRequestId as))
      subst hxs
      rfl
    | cons y ys =>
      cases xs with
      | nil => simp [sortDescByRequestId] at hs
      | cons z zs =>
        rw [hs] at ih
        have hy : y = gmax z zs := by
          have h2 : some y = some (gmax z zs) := ih
          injection h2
        rw [hy]
        show some (fm x (gmax z zs)) = some (gmax x (z :: zs))
        rw [gmax_fm]
        rfl

lemma review_rrequest_head (rs : List RequestRecord) :
    review_rrequest rs = (match (sortDescByRequestId rs).head? with
      | none => none
      | some rr => if qualifyingStatuses.contains rr.statusName then some rr else none) := by
  unfold review_rrequest
  cases sortDescByRequestId rs <;> rfl

lemma gmax_mem (l : List RequestRecord) : ∀ z, gmax z l = z ∨ gmax z l ∈ l := by
  induction l with
  | nil => intro z; exact Or.inl rfl
  | cons w ws ih =>
    intro z
    rcases ih (fm z w) with h | h
    · show gmax (fm z w) ws = z ∨ gmax (fm z w) ws ∈ w :: ws
      rw [h]
      unfold fm
      split
      · exact Or.inr (List.mem_cons_self _ _)
      · exact Or.inl rfl
    · exact Or.inr (List.mem_cons_of_mem w h)

lemma gmax_ge (l : List RequestRecord) :
    ∀ z, z.requestId ≤ (gmax z l).requestId ∧
      ∀ q ∈ l, q.requestId ≤ (gmax z l).requestId := by
  induction l with
  | nil =>
    intro z
    exact ⟨le_refl _, by intro q hq; cases hq⟩
  | cons w ws ih =>
    intro z
    obtain ⟨h1, h2⟩ := ih (fm z w)
    have hz : z.requestId ≤ (fm z w).requestId := by unfold fm; split <;> omega
    have hw : w.requestId ≤ (fm z w).requestId := by unfold fm; split <;> omega
    refine ⟨le_trans hz h1, ?_⟩
    intro q hq
    rcases List.mem_cons.mp hq with h | h
    · subst h; exact le_trans hw h1
    · exact h2 q h

/-- C1 counterexample: `_review_rrequest` looks only at the request with
the overall-maximal `requestId` — here the maximal request (id 2) has
the non-qualifying status `declined` and masks the qualifying request
with id 1, so the resolver returns `None` although a qualifying request
exists. -/
theorem C1_counterexample :
    review_rrequest [⟨1, "review", []⟩, ⟨2, "declined", []⟩] = none ∧
      (⟨1, "review", []⟩ : RequestRecord) ∈
        [(⟨1, "review", []⟩ : RequestRecord), ⟨2, "declined", []⟩] ∧
      qualifyingStatuses.contains "review" = true := by
  decide

/-- C1 (amended): for every request set the resolver picks the request
with the maximal `requestId` overall (first among equal ids) and
returns it exactly when its own status qualifies; any selected request
is a member of the set with a maximal id and a qualifying status; and
whenever nothing is selected, `_create_record` behaves exactly as on an
empty request set. -/
theorem C1_amended_thm (rs : List RequestRecord) :
    (review_rrequest rs = (match firstMax rs with
      | none => none
      | some m => if qualifyingStatuses.contains m.statusName then some m else none))
    ∧ (∀ r, review_rrequest rs = some r →
        r ∈ rs ∧ qualifyingStatuses.contains r.statusName = true ∧
          ∀ q ∈ rs, q.requestId ≤ r.requestId)
    ∧ (∀ inc : IncRaw, inc.requestSet = rs → review_rrequest rs = none →
        create_record inc = create_record { inc with requestSet := [] }) := by
  refine ⟨?_, ?_, ?_⟩
  · rw [review_rrequest_head, sortDesc_head]
  · intro r hr
    rw [review_rrequest_head, sortDesc_head] at hr
    cases rs with
    | nil => exact absurd hr (by simp [firstMax])
    | cons z zs =>
      have hr2 : (if qualifyingStatuses.contains (gmax z zs).statusName then
          some (gmax z zs) else none) = some r := hr
      by_cases hqual : qualifyingStatuses.contains (gmax z zs).statusName = true
      · rw [if_pos hqual] at hr2
        have hgr : gmax z zs = r := by injection hr2
        obtain ⟨hz, hq⟩ := gmax_ge zs z
        rw [hgr] at hz hq hqual
        refine ⟨?_, hqual, ?_⟩
        · rw [← hgr]
          rcases gmax_mem zs z with h | h
          · rw [h]; exact List.mem_cons_self _ _
          · exact List.mem_cons_of_mem z h
        · intro q hq2
          rcases List.mem_cons.mp hq2 with h | h
          · subst h; exact hz
          · exact hq q h
      · rw [if_neg hqual] at hr2
        exact absurd hr2 (by simp)
  · intro inc hinc hnone
    subst hinc
    unfold create_record
    simp only [hnone]
    rfl

/-- C1 witness: the maximal-id request qualifies and is selected. -/
theorem C1_witness :
    review_rrequest [⟨3, "review", []⟩, ⟨1, "new", []⟩] = some ⟨3, "review", []⟩ ∧
      (⟨3, "review", []⟩ : RequestRecord) ∈
        [(⟨3, "review", []⟩ : RequestRecord), ⟨1, "new", []⟩] :=
  ⟨by decide,
    ((C1_amended_thm [⟨3, "review", []⟩, ⟨1, "new", []⟩]).2.1 ⟨3, "review", []⟩ (by decide)).1⟩

lemma qamFilter2_imp1 (r : ReviewRecord) (h : qamFilter2 r = true) : qamFilter1 r = true := by
  unfold qamFilter2 at h
  unfold qamFilter1
  cases hr : r.assignedByGroup with
  | none => rw [hr] at h; exact absurd h (by simp)
  | some g => rfl

lemma filter_head_firstQam (l : List ReviewRecord) :
    ((l.filter qamFilter1).filter qamFilter2).head? = firstQamReview l := by
  induction l with
  | nil => rfl
  | cons r rest ih =>
    by_cases h2 : qamFilter2 r = true
    · have h1 : qamFilter1 r = true := qamFilter2_imp1 r h2
      simp [List.filter_cons, h1, h2, firstQamReview]
    · by_cases h1 : qamFilter1 r = true
      · simp only [List.filter_cons, h1, if_true, if_pos rfl]
        simp only [List.filter_cons, h2, if_false]
        rw [if_neg (by simp), ih]
        rw [firstQamReview, if_neg h2]
      · simp only [List.filter_cons]
        rw [if_neg h1, ih]
        rw [firstQamReview, if_neg h2]

/-- C4 counterexample: `_has_qam_review` inspects only the first
`qam-openqa` review in set order — here that review is `accepted`, and a
later `qam-openqa` review with status `new` does not make the flag true,
contradicting the claim's "at least one such review anywhere". -/
theorem C4_counterexample :
    has_qam_review ⟨1, "review",
        [⟨some "qam-openqa", "accepted"⟩, ⟨some "qam-openqa", "new"⟩]⟩ = false ∧
      (⟨some "qam-openqa", "new"⟩ : ReviewRecord) ∈
        [(⟨some "qam-openqa", "accepted"⟩ : ReviewRecord), ⟨some "qam-openqa", "new"⟩] ∧
      (["review", "new"] : List String).contains "new" = true := by
  decide

/-- C4 (amended): `inReviewQAM` is true iff the review set contains a
review assigned by group `qam-openqa` and the FIRST such review in set
order has status `review` or `new`; statuses of later `qam-openqa`
reviews are never consulted. -/
theorem C4_amended_thm (rr : RequestRecord) :
    has_qam_review rr = (match firstQamReview rr.reviewSet with
      | none => false
      | some r => (["review", "new"] : List String).contains r.statusName) := by
  unfold has_qam_review
  cases hl : rr.reviewSet with
  | nil => rfl
  | cons x xs =>
    have hh := filter_head_firstQam (x :: xs)
    simp only [List.isEmpty_cons, Bool.not_false, if_true]
    cases hfq : (((x :: xs).filter qamFilter1).filter qamFilter2) with
    | nil =>
      rw [hfq] at hh
      rw [← hh]
      rfl
    | cons r rest =>
      rw [hfq] at hh
      rw [← hh]
      show (if (["review", "new"] : List String).contains r.statusName then true else false) =
        (["review", "new"] : List String).contains r.statusName
      cases hx : (["review", "new"] : List String).contains r.statusName <;> simp [hx]

lemma insertLen_ne_nil (x : String) (l : List String) : insertLen x l ≠ [] := by
  cases l with
  | nil => simp [insertLen]
  | cons y ys => unfold insertLen; split <;> simp

lemma revLoop_ok (oracle : RevOracle) (project : String)
    (hok : ∀ l a p, ∃ n, oracle l a p = .ok n) :
    ∀ groups, ∃ out, revLoop oracle project groups = .ok out := by
  intro groups
  induction groups with
  | nil => exact ⟨[], rfl⟩
  | cons g rest ih =>
    obtain ⟨n, hn⟩ := hok g.2 g.1.arch project
    obtain ⟨out, hout⟩ := ih
    refine ⟨if n > 0 then (g.1, n) :: out else out, ?_⟩
    cases g with
    | mk archver lrepos =>
      unfold revLoop
      rw [hn, hout]

/-- C6 counterexample: on an incident with an empty channel list AND an
empty package list, construction raises `EmptyChannels` (channels are
checked first), not the `EmptyPackagesError` the claim requires for an
empty package list. -/
theorem C6_counterexample :
    buildErrOf
        (build ⟨none, "proj", 1, false, false, none, [], [], false⟩ (fun _ _ _ => .ok 1)) =
        some (.emptyChannels "proj") ∧
      (⟨none, "proj", 1, false, false, none, [], [], false⟩ : IncidentInput).packages = [] ∧
      BuildErr.emptyChannels "proj" ≠ BuildErr.emptyPackages "proj" := by
  decide

/-- C6 (amended): construction raises `EmptyChannels` whenever the
parsed channel list is empty; it raises `EmptyPackagesError` when the
package list is empty AND the channel list is non-empty (the channel
check comes first); with non-empty channels, non-empty packages and a
revision lookup that always succeeds, it raises no structural error. -/
theorem C6_amended_thm (inc : IncidentInput) (oracle : RevOracle) :
    (parse_channels inc.channels = [] → build inc oracle = .error (.emptyChannels inc.project))
    ∧ (parse_channels inc.channels ≠ [] → inc.packages = [] →
        build inc oracle = .error (.emptyPackages inc.project))
    ∧ (parse_channels inc.channels ≠ [] → inc.packages ≠ [] →
        (∀ l a p, ∃ n, oracle l a p = .ok n) → buildOk (build inc oracle) = true) := by
  refine ⟨?_, ?_, ?_⟩
  · intro h
    unfold build
    simp [h]
  · intro h hp
    unfold build
    rw [if_neg (by simpa [List.isEmpty_iff] using h)]
    rw [hp]
    rfl
  · intro h hp hok
    unfold build
    rw [if_neg (by simpa [List.isEmpty_iff] using h)]
    have hpk : (sortByLen inc.packages).isEmpty = false := by
      cases hsp : inc.packages with
      | nil => exact absurd hsp hp
      | cons a as =>
        have := insertLen_ne_nil a (sortByLen as)
        simpa [sortByLen, List.isEmpty_iff] using this
    rw [if_neg (by simp [hpk])]
    obtain ⟨out, hout⟩ :=
      revLoop_ok oracle inc.project hok (groupChannels (parse_channels inc.channels))
    unfold rev_
    rw [hout]
    rfl

/-- C6 witness: a well-formed incident builds without a structural
error. -/
theorem C6_witness : buildOk (build incC6w (fun _ _ _ => .ok 1)) = true :=
  (C6_amended_thm incC6w (fun _ _ _ => .ok 1)).2.2 (by decide) (by decide)
    (fun l a p => ⟨1, rfl⟩)

end Qembot
